import Mathlib

/-!
Shallow embedding of the drilling-control simulator's algorithmic core:
the client-side detection pass (`recompute` in clientDetection.ts), the
auto-driller state machine (`runController` in clientController.ts), and
the playback engine's smoothing filter and cursor seek
(`tick` / `moveCursor` in SimulationEngine.tsx).

JavaScript numbers are modelled as rationals (ℚ); nullable channels as
`Option ℚ`.  One modelling note: JS division by zero yields NaN whereas
`ℚ` yields 0 — the only place this can occur is the weight normalisation
when all three weights are zero, and no theorem below evaluates severity
values at that point (only the shape/length of the produced array, which
in the source is unaffected: the pass still returns a full-length array
of NaN-severity rows).
-/

namespace DrillSim

/-- The channels of a telemetry row that the detection pass reads
(`mwd_ssi`, `torque_deviation`, `rpm_ssi`, each nullable) plus the
elapsed-time key.  The remaining channels of `TelemetryRow` are carried
through `recompute` unchanged and never read by the core. -/
structure TelemetryRow where
  elapsed_s : ℚ
  mwd_ssi : Option ℚ
  torque_deviation : Option ℚ
  rpm_ssi : Option ℚ
  deriving DecidableEq, Repr

/-- `ProcessedRow extends TelemetryRow` with the three derived fields. -/
structure ProcessedRow extends TelemetryRow where
  computed_css : ℚ
  computed_flag : Bool
  computed_event_id : ℕ
  deriving DecidableEq, Repr

structure DetectionParams where
  mwdWeight : ℚ
  torqueWeight : ℚ
  rpmWeight : ℚ
  cssThreshold : ℚ
  minDurationSamples : ℕ
  deriving DecidableEq, Repr

/-- `Math.max(0, Math.min(1, x))`. -/
def clamp01 (x : ℚ) : ℚ := max 0 (min 1 x)

/-- Step 1 of `recompute`: the composite severity score of one row.
Weights are normalised by their sum; the torque and rpm channels are
scaled by 0.5 and clamped to [0,1] before weighting; absent channels
contribute 0; the weighted sum is capped above by `Math.min(1, ·)`
(there is no lower clamp in the source). -/
def computeCss (p : DetectionParams) (r : TelemetryRow) : ℚ :=
  let total := p.mwdWeight + p.torqueWeight + p.rpmWeight
  let wMwd := p.mwdWeight / total
  let wTorque := p.torqueWeight / total
  let wRpm := p.rpmWeight / total
  let mwd := (r.mwd_ssi.getD 0) * wMwd
  let torque := clamp01 ((r.torque_deviation.getD 0) * (1/2)) * wTorque
  let rpm := clamp01 ((r.rpm_ssi.getD 0) * (1/2)) * wRpm
  min 1 (mwd + torque + rpm)

/-- Step 2 of `recompute`: `sustained[i]` is set (for `i ≥ w - 1`) iff the
`w` raw flags at indices `i-w+1 … i` are all true; indices below `w - 1`
keep their initial `false`. -/
def sustainedFlags (w : ℕ) (raw : List Bool) : List Bool :=
  (List.range raw.length).map (fun i =>
    if w ≤ i + 1 then (List.range w).all (fun k => raw.getD (i - k) false)
    else false)

/-- Step 3 of `recompute`: the event-id scan.  `eventId` counts events so
far, `inEvent` remembers the previous sustained flag; a sustained sample
outside an event opens a new one. -/
def assignIdsAux (eventId : ℕ) (inEvent : Bool) : List Bool → List ℕ
  | [] => []
  | s :: rest =>
    let eventId' := if s && !inEvent then eventId + 1 else eventId
    (if s then eventId' else 0) :: assignIdsAux eventId' s rest

def assignIds (sust : List Bool) : List ℕ := assignIdsAux 0 false sust

/-- `recompute(rows, params)`: severity, sustained flag and event id for
every row.  The source performs no parameter validation of any kind; it
always returns one processed row per input row. -/
def recompute (rows : List TelemetryRow) (p : DetectionParams) : List ProcessedRow :=
  let processed := rows.map (fun r =>
    ({ toTelemetryRow := r, computed_css := computeCss p r,
       computed_flag := false, computed_event_id := 0 } : ProcessedRow))
  let rawFlag := processed.map (fun r => decide (p.cssThreshold ≤ r.computed_css))
  let sust := sustainedFlags p.minDurationSamples rawFlag
  let ids := assignIds sust
  (processed.zip (sust.zip ids)).map (fun ri =>
    { ri.1 with computed_flag := ri.2.1, computed_event_id := ri.2.2 })

/-! ## Controller (clientController.ts) -/

inductive ControllerState where
  | NORMAL | DETECTING | MITIGATING | RECOVERING
  deriving DecidableEq, Repr

structure ControllerParams where
  ssiEngage : ℚ
  ssiRecovery : ℚ
  holdoffSamples : ℕ
  kpWob : ℚ
  wobMinFraction : ℚ
  kpRpm : ℚ
  rpmMaxIncrease : ℚ
  deriving DecidableEq, Repr

structure ControllerOutput where
  state : ControllerState
  wob_setpoint : ℚ
  rpm_setpoint : ℚ
  deriving DecidableEq, Repr

/-- The mutable locals threaded through `runController`'s loop. -/
structure CtrlMem where
  state : ControllerState
  detectionStartIdx : ℕ
  recoveryStartIdx : ℕ
  wobSp : ℚ
  rpmSp : ℚ
  deriving DecidableEq, Repr

/-- One iteration of `runController`'s `switch` on sample `i` with
severity `css`.  The pushed output for sample `i` is the state and
setpoints of the returned memory (the source pushes after the switch). -/
def ctrlStep (p : ControllerParams) (nominalWob nominalRpm : ℚ)
    (m : CtrlMem) (i : ℕ) (css : ℚ) : CtrlMem :=
  match m.state with
  | .NORMAL =>
    let m := { m with wobSp := nominalWob, rpmSp := nominalRpm }
    if p.ssiEngage ≤ css then
      { m with state := .DETECTING, detectionStartIdx := i }
    else m
  | .DETECTING =>
    if css < p.ssiEngage then { m with state := .NORMAL }
    else if p.holdoffSamples ≤ i - m.detectionStartIdx then
      { m with state := .MITIGATING }
    else m
  | .MITIGATING =>
    let excess := max 0 (css - p.ssiEngage)
    let m := { m with
      wobSp := max (nominalWob * p.wobMinFraction)
                   (nominalWob - p.kpWob * excess * nominalWob),
      rpmSp := min (nominalRpm + p.rpmMaxIncrease)
                   (nominalRpm + p.kpRpm * excess * 10) }
    if css < p.ssiRecovery then
      { m with state := .RECOVERING, recoveryStartIdx := i }
    else m
  | .RECOVERING =>
    if p.ssiEngage ≤ css then { m with state := .MITIGATING }
    else if 12 ≤ i - m.recoveryStartIdx then
      let wobSp := min nominalWob (m.wobSp + (8/1000) * nominalWob)
      let rpmSp := max nominalRpm (m.rpmSp - 1/2)
      if nominalWob * (98/100) ≤ wobSp then
        { m with state := .NORMAL, wobSp := nominalWob, rpmSp := nominalRpm }
      else { m with wobSp := wobSp, rpmSp := rpmSp }
    else m

/-- The loop of `runController`, pushing one output per severity value. -/
def runControllerAux (p : ControllerParams) (nW nR : ℚ) :
    CtrlMem → ℕ → List ℚ → List ControllerOutput
  | _, _, [] => []
  | m, i, css :: rest =>
    let m' := ctrlStep p nW nR m i css
    { state := m'.state, wob_setpoint := m'.wobSp, rpm_setpoint := m'.rpmSp }
      :: runControllerAux p nW nR m' (i + 1) rest

/-- The initial values of `runController`'s locals. -/
def initMem (nW nR : ℚ) : CtrlMem :=
  { state := .NORMAL, detectionStartIdx := 0, recoveryStartIdx := 0,
    wobSp := nW, rpmSp := nR }

/-- `runController(rows, params, nominalWob, nominalRpm)`: one full
left-to-right pass, reading `rows[i].computed_css`.  The source performs
no parameter validation. -/
def runController (rows : List ProcessedRow) (p : ControllerParams)
    (nominalWob nominalRpm : ℚ) : List ControllerOutput :=
  runControllerAux p nominalWob nominalRpm (initMem nominalWob nominalRpm) 0
    (rows.map (·.computed_css))

/-! ## Playback engine (SimulationEngine.tsx) -/

/-- The attack/release smoothing update from `tick`:
`alpha = raw > y ? 0.4 : 0.08; y = alpha*raw + (1-alpha)*y`. -/
def smoothUpdate (y raw : ℚ) : ℚ :=
  let alpha := if y < raw then (2/5 : ℚ) else 2/25
  alpha * raw + (1 - alpha) * y

/-- The engine state relevant to seeking: the cursor, the play flag and
the two severity cells (`smoothedCssRef` and the `displayCss` state). -/
structure EngineState where
  cursorIdx : ℕ
  playing : Bool
  smoothedCss : ℚ
  displayCss : ℚ
  deriving DecidableEq, Repr

/-- `moveCursor(newIdx)`: sets the cursor and hard-resets both severity
cells to `processed[newIdx]?.computed_css ?? 0`; the play flag is left
unchanged (DOM/scrubber writes are rendering only). -/
def moveCursor (processed : List ProcessedRow) (st : EngineState)
    (newIdx : ℕ) : EngineState :=
  let raw := ((processed.get? newIdx).map (·.computed_css)).getD 0
  { st with cursorIdx := newIdx, smoothedCss := raw, displayCss := raw }

/-- The slow-channel payload derived from the throttled cursor:
`processed[cursorIdx] ?? processed[0]`, `ctrlOutputs[cursorIdx] ??
ctrlOutputs[0]`, and the smoothed severity. -/
def slowPayload (processed : List ProcessedRow)
    (ctrlOutputs : List ControllerOutput) (st : EngineState) :
    Option ProcessedRow × Option ControllerOutput × ℚ :=
  ((processed.get? st.cursorIdx).orElse (fun _ => processed.get? 0),
   (ctrlOutputs.get? st.cursorIdx).orElse (fun _ => ctrlOutputs.get? 0),
   st.smoothedCss)

/-- A processed row carrying only a severity, for concrete controller
examples (all other channels are ignored by `runController`). -/
def testRow (c : ℚ) : ProcessedRow :=
  { elapsed_s := 0, mwd_ssi := none, torque_deviation := none,
    rpm_ssi := none, computed_css := c, computed_flag := false,
    computed_event_id := 0 }

/-! ## Length lemmas: every pass emits exactly one output per input -/

lemma sustainedFlags_length (w : ℕ) (raw : List Bool) :
    (sustainedFlags w raw).length = raw.length := by
  simp [sustainedFlags]

lemma assignIdsAux_length (l : List Bool) :
    ∀ (eid : ℕ) (prev : Bool), (assignIdsAux eid prev l).length = l.length := by
  induction l with
  | nil => intro eid prev; rfl
  | cons s rest ih => intro eid prev; simp [assignIdsAux, ih]

lemma assignIds_length (s : List Bool) : (assignIds s).length = s.length :=
  assignIdsAux_length s 0 false

lemma recompute_length (rows : List TelemetryRow) (p : DetectionParams) :
    (recompute rows p).length = rows.length := by
  simp [recompute, sustainedFlags_length, assignIds_length]

lemma runControllerAux_length (p : ControllerParams) (nW nR : ℚ) :
    ∀ (l : List ℚ) (m : CtrlMem) (i : ℕ),
      (runControllerAux p nW nR m i l).length = l.length := by
  intro l
  induction l with
  | nil => intro m i; rfl
  | cons css rest ih => intro m i; simp [runControllerAux, ih]

lemma runController_length (rows : List ProcessedRow) (p : ControllerParams)
    (nW nR : ℚ) : (runController rows p nW nR).length = rows.length := by
  simp [runController, runControllerAux_length]

/-! ## C1: configuration validation -/

/-- All-zero detection weights (sum = 0), an invalid configuration. -/
def zeroWeightParams : DetectionParams :=
  { mwdWeight := 0, torqueWeight := 0, rpmWeight := 0,
    cssThreshold := 1/4, minDurationSamples := 0 }

/-- An invalid controller configuration: `ssiRecovery > ssiEngage`,
negative gains, zero floor fraction, negative max delta. -/
def badControllerParams : ControllerParams :=
  { ssiEngage := 1/4, ssiRecovery := 1/2, holdoffSamples := 2,
    kpWob := -1, wobMinFraction := 0, kpRpm := -1, rpmMaxIncrease := -1 }

def sampleRow : TelemetryRow :=
  { elapsed_s := 0, mwd_ssi := some 1, torque_deviation := none,
    rpm_ssi := none }

/-- C1 counterexample: on these invalid configurations neither entry
point fails — both produce a (full, length-1) output array for a
length-1 input, so no `ConfigurationError` precedes the pass. -/
theorem C1_invalid_config_still_produces_output :
    (recompute [sampleRow] zeroWeightParams).length = 1 ∧
    (runController [testRow (1/2)] badControllerParams 100 100).length = 1 := by
  constructor
  · rw [recompute_length]; rfl
  · rw [runController_length]; rfl

/-- C1 (amended): the entry points perform no configuration validation
at all; for every parameter values — valid or invalid — they return an
output array of exactly the input's length. -/
theorem passes_never_fail_always_full_length :
    (∀ (rows : List TelemetryRow) (p : DetectionParams),
      (recompute rows p).length = rows.length) ∧
    (∀ (rows : List ProcessedRow) (q : ControllerParams) (nW nR : ℚ),
      (runController rows q nW nR).length = rows.length) :=
  ⟨recompute_length, runController_length⟩

/-! ## C2: severity range -/

lemma clamp01_nonneg (x : ℚ) : 0 ≤ clamp01 x := le_max_left 0 _

lemma clamp01_le_one (x : ℚ) : clamp01 x ≤ 1 :=
  max_le (by norm_num) (min_le_left 1 x)

/-- A valid parameter set (non-negative weights, positive sum) and a row
with a negative `mwd_ssi` reading. -/
def negMwdParams : DetectionParams :=
  { mwdWeight := 1, torqueWeight := 0, rpmWeight := 0,
    cssThreshold := 1/4, minDurationSamples := 4 }

def negMwdRow : TelemetryRow :=
  { elapsed_s := 0, mwd_ssi := some (-2), torque_deviation := none,
    rpm_ssi := none }

/-- C2 counterexample: with valid weights (non-negative, sum 1 > 0) and
a row whose `mwd_ssi` is −2, the computed severity is −2 — below 0, so
the per-row severity does not lie in [0,1] for arbitrary numeric
channels (the source caps only above, `Math.min(1, ·)`). -/
theorem C2_severity_below_zero :
    (0 ≤ negMwdParams.mwdWeight ∧ 0 ≤ negMwdParams.torqueWeight ∧
      0 ≤ negMwdParams.rpmWeight ∧
      0 < negMwdParams.mwdWeight + negMwdParams.torqueWeight +
          negMwdParams.rpmWeight) ∧
    computeCss negMwdParams negMwdRow < 0 := by
  constructor
  · refine ⟨by norm_num [negMwdParams], by norm_num [negMwdParams],
      by norm_num [negMwdParams], by norm_num [negMwdParams]⟩
  · norm_num [computeCss, negMwdParams, negMwdRow, clamp01]

/-- C2 (amended): for valid weights (non-negative, at least one
non-zero) and rows whose `mwd_ssi` channel is absent or non-negative,
the computed severity lies in [0,1].  (The torque and rpm channels may
still be arbitrary: they are clamped per-channel by the source.) -/
theorem computeCss_mem_unit_interval (p : DetectionParams) (r : TelemetryRow)
    (hm : 0 ≤ p.mwdWeight) (ht : 0 ≤ p.torqueWeight) (hr : 0 ≤ p.rpmWeight)
    (hsum : 0 < p.mwdWeight + p.torqueWeight + p.rpmWeight)
    (hmwd : 0 ≤ r.mwd_ssi.getD 0) :
    0 ≤ computeCss p r ∧ computeCss p r ≤ 1 := by
  unfold computeCss
  constructor
  · apply le_min (by norm_num)
    have h1 : 0 ≤ r.mwd_ssi.getD 0 * (p.mwdWeight / (p.mwdWeight + p.torqueWeight + p.rpmWeight)) :=
      mul_nonneg hmwd (div_nonneg hm hsum.le)
    have h2 : 0 ≤ clamp01 (r.torque_deviation.getD 0 * (1/2)) *
        (p.torqueWeight / (p.mwdWeight + p.torqueWeight + p.rpmWeight)) :=
      mul_nonneg (clamp01_nonneg _) (div_nonneg ht hsum.le)
    have h3 : 0 ≤ clamp01 (r.rpm_ssi.getD 0 * (1/2)) *
        (p.rpmWeight / (p.mwdWeight + p.torqueWeight + p.rpmWeight)) :=
      mul_nonneg (clamp01_nonneg _) (div_nonneg hr hsum.le)
    linarith
  · exact min_le_left _ _

/-- Witness for the amended C2 at the default parameters and a
fully-present row. -/
theorem computeCss_mem_unit_interval_witness :
    0 ≤ computeCss negMwdParams sampleRow ∧
      computeCss negMwdParams sampleRow ≤ 1 :=
  computeCss_mem_unit_interval negMwdParams sampleRow (by norm_num [negMwdParams])
    (by norm_num [negMwdParams]) (by norm_num [negMwdParams])
    (by norm_num [negMwdParams]) (by norm_num [sampleRow])

/-! ## C3: the sustain window -/

lemma sustainedFlags_getD (w : ℕ) (raw : List Bool) (i : ℕ)
    (hi : i < raw.length) :
    (sustainedFlags w raw).getD i false =
      if w ≤ i + 1 then (List.range w).all (fun k => raw.getD (i - k) false)
      else false := by
  unfold sustainedFlags
  rw [List.getD_eq_getElem?_getD, List.getElem?_map, List.getElem?_range hi]
  rfl

/-- C3: with `raw[i] = (severities[i] ≥ threshold)`, the segmenter's
`sustained[i]` (for indices in range at or past `w - 1`) is true iff all
raw flags at indices `i-w+1 … i` are true; `sustained[i]` is false for
every `i < w - 1`; and `w = 1` makes `sustained` equal to `raw`. -/
theorem sustainedFlags_window_spec (sev : List ℚ) (thr : ℚ) (w : ℕ)
    (hw : 1 ≤ w) :
    (∀ i, i < sev.length → w - 1 ≤ i →
      ((sustainedFlags w (sev.map (fun s => decide (thr ≤ s)))).getD i false = true ↔
        ∀ j, i + 1 - w ≤ j → j ≤ i →
          (sev.map (fun s => decide (thr ≤ s))).getD j false = true)) ∧
    (∀ i, i < w - 1 →
      (sustainedFlags w (sev.map (fun s => decide (thr ≤ s)))).getD i false = false) ∧
    sustainedFlags 1 (sev.map (fun s => decide (thr ≤ s))) =
      sev.map (fun s => decide (thr ≤ s)) := by
  set raw := sev.map (fun s => decide (thr ≤ s)) with hraw
  have hlen : raw.length = sev.length := by simp [hraw]
  refine ⟨?_, ?_, ?_⟩
  · intro i hi hwi
    rw [sustainedFlags_getD w raw i (by omega), if_pos (by omega),
      List.all_eq_true]
    constructor
    · intro h j hj1 hj2
      have hk : i - j < w := by omega
      have hh := h (i - j) (List.mem_range.mpr hk)
      have hij : i - (i - j) = j := by omega
      rwa [hij] at hh
    · intro h k hk
      have hk' : k < w := List.mem_range.mp hk
      exact h (i - k) (by omega) (by omega)
  · intro i hi
    by_cases hil : i < raw.length
    · rw [sustainedFlags_getD w raw i hil]
      simp [Nat.not_le.mpr (show i + 1 < w by omega)]
    · apply List.getD_eq_default
      rw [sustainedFlags_length]
      omega
  · apply List.ext_getElem
    · simp [sustainedFlags]
    · intro i h1 h2
      simp only [sustainedFlags, List.getElem_map, List.getElem_range]
      have h3 : (1 : ℕ) ≤ i + 1 := by omega
      have hr1 : List.range 1 = [0] := rfl
      rw [if_pos h3, hr1]
      simp [List.getD_eq_getElem?_getD, List.getElem?_eq_getElem h2]

/-- Witness for C3 at `severities [1, 0, 1]`, `threshold 1/2`, `w = 2`:
index 0 lies below the window and is not sustained. -/
theorem sustainedFlags_window_spec_witness :
    (sustainedFlags 2 ([1, 0, 1].map (fun s => decide ((1:ℚ)/2 ≤ s)))).getD 0 false = false :=
  (sustainedFlags_window_spec [1, 0, 1] (1/2) 2 (by norm_num)).2.1 0 (by norm_num)

/-! ## C4: event-id assignment -/

/-- `sustained` has a false→true transition at `j` (the start of an
event): the flag is set at `j` and was clear just before (or `j = 0`). -/
def newAt (prev : Bool) (l : List Bool) (j : ℕ) : Bool :=
  l.getD j false && !(if j = 0 then prev else l.getD (j - 1) false)

/-- Number of false→true transitions at indices `< k`. -/
def countNew (prev : Bool) (l : List Bool) (k : ℕ) : ℕ :=
  ((List.range k).filter (fun j => newAt prev l j)).length

lemma newAt_cons_succ (prev s : Bool) (rest : List Bool) (j : ℕ) :
    newAt prev (s :: rest) (j + 1) = newAt s rest j := by
  cases j <;> simp [newAt, List.getD_cons_succ, List.getD_cons_zero]

lemma countNew_succ (prev : Bool) (l : List Bool) (k : ℕ) :
    countNew prev l (k + 1) =
      countNew prev l k + (if newAt prev l k then 1 else 0) := by
  unfold countNew
  rw [List.range_succ, List.filter_append, List.length_append]
  by_cases h : newAt prev l k = true <;> simp [List.filter_cons, h]

lemma countNew_zero (prev : Bool) (l : List Bool) : countNew prev l 0 = 0 := rfl

lemma countNew_cons_succ (prev s : Bool) (rest : List Bool) (k : ℕ) :
    countNew prev (s :: rest) (k + 1) =
      (if s && !prev then 1 else 0) + countNew s rest k := by
  induction k with
  | zero =>
    rw [countNew_succ, countNew_zero, countNew_zero]
    have h0 : newAt prev (s :: rest) 0 = (s && !prev) := by
      simp [newAt, List.getD_cons_zero]
    rw [h0]; omega
  | succ k ih =>
    rw [countNew_succ, ih, countNew_succ s rest k, newAt_cons_succ]
    omega

/-- The event-id scan, characterised positionally: the id at `i` is the
number of event starts up to and including `i` when sustained, else 0. -/
lemma assignIdsAux_getD (l : List Bool) :
    ∀ (eid : ℕ) (prev : Bool) (i : ℕ), i < l.length →
      (assignIdsAux eid prev l).getD i 0 =
        if l.getD i false then eid + countNew prev l (i + 1) else 0 := by
  induction l with
  | nil => intro eid prev i hi; simp at hi
  | cons s rest ih =>
    intro eid prev i hi
    cases i with
    | zero =>
      have h1 : countNew prev (s :: rest) 1 = if s && !prev then 1 else 0 := by
        rw [countNew_cons_succ, countNew_zero]; omega
      simp only [assignIdsAux, List.getD_cons_zero, h1]
      cases s <;> cases prev <;> simp
    | succ i =>
      have hstep : (assignIdsAux eid prev (s :: rest)).getD (i + 1) 0 =
          (assignIdsAux (if s && !prev then eid + 1 else eid) s rest).getD i 0 := by
        simp [assignIdsAux, List.getD_cons_succ]
      rw [hstep, ih _ s i (by simpa using Nat.lt_of_succ_lt_succ hi),
        List.getD_cons_succ, countNew_cons_succ]
      cases hres : rest.getD i false <;> cases s <;> cases prev <;>
        (simp [hres]; try omega)

/-- Every sustained index is preceded (weakly) by an event start. -/
lemma exists_newAt (s : List Bool) :
    ∀ i, s.getD i false = true → ∃ j, j ≤ i ∧ newAt false s j = true := by
  intro i
  induction i with
  | zero =>
    intro h
    exact ⟨0, le_refl 0, by
      simp [newAt]; simpa [List.getD_eq_getElem?_getD] using h⟩
  | succ i ih =>
    intro h
    cases hp : s.getD i false with
    | false =>
      exact ⟨i + 1, le_refl _, by
        simp [newAt]
        exact ⟨by simpa [List.getD_eq_getElem?_getD] using h,
          by simpa [List.getD_eq_getElem?_getD] using hp⟩⟩
    | true => obtain ⟨j, hj, hnew⟩ := ih hp; exact ⟨j, by omega, hnew⟩

lemma countNew_pos (s : List Bool) (i j : ℕ) (hj : j ≤ i)
    (h : newAt false s j = true) : 0 < countNew false s (i + 1) := by
  unfold countNew
  have hm : j ∈ (List.range (i + 1)).filter (fun j => newAt false s j) :=
    List.mem_filter.mpr ⟨List.mem_range.mpr (by omega), h⟩
  exact List.length_pos.mpr (fun he => by simp [he] at hm)

/-- C4: the assigned event ids are 0 exactly where `sustained` is false;
at each false→true transition of `sustained` the id equals one more than
the number of earlier transitions (so the first event gets id 1 and each
transition increases the id by exactly 1); and the id is constant across
consecutive sustained samples. -/
theorem assignIds_spec (s : List Bool) :
    (∀ i, i < s.length →
      ((assignIds s).getD i 0 = 0 ↔ s.getD i false = false)) ∧
    (∀ i, i < s.length → newAt false s i = true →
      (assignIds s).getD i 0 = countNew false s i + 1) ∧
    (∀ i, i + 1 < s.length → s.getD i false = true →
      s.getD (i + 1) false = true →
      (assignIds s).getD (i + 1) 0 = (assignIds s).getD i 0) := by
  have key : ∀ i, i < s.length → (assignIds s).getD i 0 =
      if s.getD i false then countNew false s (i + 1) else 0 := by
    intro i hi
    have h := assignIdsAux_getD s 0 false i hi
    simpa [assignIds] using h
  refine ⟨?_, ?_, ?_⟩
  · intro i hi
    rw [key i hi]
    cases h : s.getD i false with
    | false => simp
    | true =>
      obtain ⟨j, hj, hn⟩ := exists_newAt s i h
      have hpos := countNew_pos s i j hj hn
      simp only [if_pos]
      constructor
      · intro h0; exact absurd h0 (by omega)
      · intro h0; cases h0
  · intro i hi hn
    have hs : s.getD i false = true := by
      have hh := hn; unfold newAt at hh
      exact ((Bool.and_eq_true _ _).mp hh).1
    rw [key i hi, if_pos hs, countNew_succ, if_pos hn]
  · intro i hi h1 h2
    rw [key (i + 1) hi, key i (by omega), if_pos h1, if_pos h2]
    have hn : newAt false s (i + 1) = false := by
      unfold newAt
      rw [if_neg (by omega : ¬(i + 1 = 0))]
      have hsub : i + 1 - 1 = i := by omega
      rw [hsub, h1]
      simp
    rw [countNew_succ false s (i + 1), hn]
    simp

/-- Witness for C4 at `sustained = [false, true]`: the transition at
index 1 receives id `countNew + 1 = 1`. -/
theorem assignIds_spec_witness :
    (assignIds [false, true]).getD 1 0 = countNew false [false, true] 1 + 1 :=
  (assignIds_spec [false, true]).2.1 1 (by norm_num) (by decide)

/-! ## C5, C6: controller transitions and mitigation formulas -/

/-- Example 3's parameters: `engageThreshold 0.25`, `holdoffSamples 2`
(other fields at the source defaults). -/
def exampleParams : ControllerParams :=
  { ssiEngage := 1/4, ssiRecovery := 1/5, holdoffSamples := 2,
    kpWob := 3/10, wobMinFraction := 7/20, kpRpm := 3/20,
    rpmMaxIncrease := 25 }

lemma ctrlStep_detecting_to_normal (p : ControllerParams) (nW nR : ℚ)
    (m : CtrlMem) (i : ℕ) (css : ℚ) (hm : m.state = .DETECTING)
    (h : css < p.ssiEngage) : (ctrlStep p nW nR m i css).state = .NORMAL := by
  obtain ⟨st, d, r, w, rp⟩ := m
  simp only [CtrlMem.state] at hm
  subst hm
  simp [ctrlStep, h]

lemma ctrlStep_detecting_to_mitigating (p : ControllerParams) (nW nR : ℚ)
    (m : CtrlMem) (i : ℕ) (css : ℚ) (hm : m.state = .DETECTING)
    (h1 : p.ssiEngage ≤ css)
    (h2 : p.holdoffSamples ≤ i - m.detectionStartIdx) :
    (ctrlStep p nW nR m i css).state = .MITIGATING := by
  obtain ⟨st, d, r, w, rp⟩ := m
  simp only [CtrlMem.state] at hm
  simp only [CtrlMem.detectionStartIdx] at h2
  subst hm
  simp only [ctrlStep]
  rw [if_neg (not_lt.mpr h1), if_pos h2]

/-- C5: the pass starts in NORMAL; from DETECTING the machine returns to
NORMAL when `s[i] < engageThreshold` and (otherwise) enters MITIGATING
when `i - detectStart ≥ holdoffSamples`; concretely, severities
[0.1, 0.3, 0.3, 0.3] with engage 0.25 and holdoff 2 give states
[NORMAL, DETECTING, DETECTING, MITIGATING]. -/
theorem controller_start_and_detecting_transitions :
    (∀ nW nR : ℚ, (initMem nW nR).state = ControllerState.NORMAL) ∧
    (∀ (p : ControllerParams) (nW nR : ℚ) (m : CtrlMem) (i : ℕ) (css : ℚ),
      m.state = .DETECTING → css < p.ssiEngage →
      (ctrlStep p nW nR m i css).state = .NORMAL) ∧
    (∀ (p : ControllerParams) (nW nR : ℚ) (m : CtrlMem) (i : ℕ) (css : ℚ),
      m.state = .DETECTING → p.ssiEngage ≤ css →
      p.holdoffSamples ≤ i - m.detectionStartIdx →
      (ctrlStep p nW nR m i css).state = .MITIGATING) ∧
    (runController
        [testRow (1/10), testRow (3/10), testRow (3/10), testRow (3/10)]
        exampleParams 100 100).map (·.state) =
      [.NORMAL, .DETECTING, .DETECTING, .MITIGATING] := by
  refine ⟨fun nW nR => rfl, ctrlStep_detecting_to_normal,
    ctrlStep_detecting_to_mitigating, ?_⟩
  norm_num [runController, runControllerAux, ctrlStep, initMem, testRow,
    exampleParams]

/-- Witness for C5: concrete DETECTING steps — severity 0.1 drops back
to NORMAL; severity 0.3 at the end of the holdoff enters MITIGATING. -/
theorem controller_start_and_detecting_transitions_witness :
    (ctrlStep exampleParams 100 100
      ⟨.DETECTING, 1, 0, 100, 100⟩ 2 (1/10)).state = .NORMAL ∧
    (ctrlStep exampleParams 100 100
      ⟨.DETECTING, 1, 0, 100, 100⟩ 3 (3/10)).state = .MITIGATING :=
  ⟨controller_start_and_detecting_transitions.2.1 exampleParams 100 100
      ⟨.DETECTING, 1, 0, 100, 100⟩ 2 (1/10) rfl
      (by norm_num [exampleParams]),
    controller_start_and_detecting_transitions.2.2.1 exampleParams 100 100
      ⟨.DETECTING, 1, 0, 100, 100⟩ 3 (3/10) rfl
      (by norm_num [exampleParams]) (by norm_num [exampleParams])⟩

/-- C6: while in MITIGATING the setpoints follow the proportional
formulas (floored for A, capped for B); concretely severity 0.55 with
nominalA 100, kp 0.3, floor 0.35, engage 0.25 yields setpointA = 91. -/
theorem mitigating_setpoint_formulas :
    (∀ (p : ControllerParams) (nW nR : ℚ) (m : CtrlMem) (i : ℕ) (css : ℚ),
      m.state = .MITIGATING →
      (ctrlStep p nW nR m i css).wobSp =
        max (nW * p.wobMinFraction)
            (nW - p.kpWob * max 0 (css - p.ssiEngage) * nW) ∧
      (ctrlStep p nW nR m i css).rpmSp =
        min (nR + p.rpmMaxIncrease)
            (nR + p.kpRpm * max 0 (css - p.ssiEngage) * 10)) ∧
    (ctrlStep exampleParams 100 100
      ⟨.MITIGATING, 0, 0, 100, 100⟩ 5 (11/20)).wobSp = 91 := by
  constructor
  · intro p nW nR m i css hm
    obtain ⟨st, d, r, w, rp⟩ := m
    simp only [CtrlMem.state] at hm
    subst hm
    simp only [ctrlStep]
    split_ifs <;> simp
  · norm_num [ctrlStep, exampleParams]

/-- Witness for C6: applying the formula part at the Example 4 inputs. -/
theorem mitigating_setpoint_formulas_witness :
    (ctrlStep exampleParams 100 100
      ⟨.MITIGATING, 0, 0, 100, 100⟩ 5 (11/20)).wobSp =
        max (100 * exampleParams.wobMinFraction)
          (100 - exampleParams.kpWob *
            max 0 (11/20 - exampleParams.ssiEngage) * 100) ∧
    (ctrlStep exampleParams 100 100
      ⟨.MITIGATING, 0, 0, 100, 100⟩ 5 (11/20)).rpmSp =
        min (100 + exampleParams.rpmMaxIncrease)
          (100 + exampleParams.kpRpm *
            max 0 (11/20 - exampleParams.ssiEngage) * 10) :=
  mitigating_setpoint_formulas.1 exampleParams 100 100
    ⟨.MITIGATING, 0, 0, 100, 100⟩ 5 (11/20) rfl

/-! ## C7: no direct MITIGATING → DETECTING step -/

lemma ctrlStep_from_mitigating (p : ControllerParams) (nW nR : ℚ)
    (m : CtrlMem) (i : ℕ) (css : ℚ) (hm : m.state = .MITIGATING) :
    (ctrlStep p nW nR m i css).state = .MITIGATING ∨
    (ctrlStep p nW nR m i css).state = .RECOVERING := by
  obtain ⟨st, d, r, w, rp⟩ := m
  simp only [CtrlMem.state] at hm
  subst hm
  simp only [ctrlStep]
  split_ifs <;> simp

/-- Consecutive outputs of the pass: the later one is obtained by one
`ctrlStep` from a memory whose state is the earlier one's state (the
source pushes the post-transition state each sample). -/
lemma runControllerAux_consec (p : ControllerParams) (nW nR : ℚ) :
    ∀ (l : List ℚ) (m : CtrlMem) (i j : ℕ) (o o' : ControllerOutput),
      (runControllerAux p nW nR m i l).get? j = some o →
      (runControllerAux p nW nR m i l).get? (j + 1) = some o' →
      ∃ (m' : CtrlMem) (i' : ℕ) (css' : ℚ),
        m'.state = o.state ∧
        o'.state = (ctrlStep p nW nR m' i' css').state := by
  intro l
  induction l with
  | nil => intro m i j o o' h1 h2; simp [runControllerAux] at h1
  | cons css rest ih =>
    intro m i j o o' h1 h2
    cases j with
    | zero =>
      cases rest with
      | nil => simp [runControllerAux] at h2
      | cons css2 r2 =>
        refine ⟨ctrlStep p nW nR m i css, i + 1, css2, ?_, ?_⟩
        · have hx : o = ControllerOutput.mk
              (ctrlStep p nW nR m i css).state
              (ctrlStep p nW nR m i css).wobSp
              (ctrlStep p nW nR m i css).rpmSp :=
            (Option.some.inj h1).symm
          rw [hx]
        · have hx : o' = ControllerOutput.mk
              (ctrlStep p nW nR (ctrlStep p nW nR m i css) (i + 1) css2).state
              (ctrlStep p nW nR (ctrlStep p nW nR m i css) (i + 1) css2).wobSp
              (ctrlStep p nW nR (ctrlStep p nW nR m i css) (i + 1) css2).rpmSp :=
            (Option.some.inj h2).symm
          rw [hx]
    | succ j =>
      have h1' : (runControllerAux p nW nR (ctrlStep p nW nR m i css)
          (i + 1) rest).get? j = some o := by
        simpa [runControllerAux] using h1
      have h2' : (runControllerAux p nW nR (ctrlStep p nW nR m i css)
          (i + 1) rest).get? (j + 1) = some o' := by
        simpa [runControllerAux] using h2
      exact ih (ctrlStep p nW nR m i css) (i + 1) j o o' h1' h2'

/-- C7: in the controller pass the state never steps directly from
MITIGATING to DETECTING — the output following a MITIGATING output is
MITIGATING or RECOVERING. -/
theorem runController_no_mitigating_to_detecting :
    ∀ (rows : List ProcessedRow) (p : ControllerParams) (nW nR : ℚ)
      (i : ℕ) (o o' : ControllerOutput),
      (runController rows p nW nR).get? i = some o →
      (runController rows p nW nR).get? (i + 1) = some o' →
      o.state = .MITIGATING →
      o'.state = .MITIGATING ∨ o'.state = .RECOVERING := by
  intro rows p nW nR i o o' h1 h2 hm
  obtain ⟨m', i', css', hms, ho'⟩ :=
    runControllerAux_consec p nW nR _ _ _ i o o' h1 h2
  rw [ho']
  exact ctrlStep_from_mitigating p nW nR m' i' css' (hms.trans hm)

/-- Example 3's parameters with `holdoffSamples = 0`, so MITIGATING is
reached by the second sample. -/
def holdoffZeroParams : ControllerParams :=
  { ssiEngage := 1/4, ssiRecovery := 1/5, holdoffSamples := 0,
    kpWob := 3/10, wobMinFraction := 7/20, kpRpm := 3/20,
    rpmMaxIncrease := 25 }

/-- Witness for C7 on severities [0.3, 0.3, 0.3] with zero holdoff:
output 1 is MITIGATING and output 2 follows it. -/
theorem runController_no_mitigating_to_detecting_witness :
    (⟨.MITIGATING, 197/2, 4003/40⟩ : ControllerOutput).state = .MITIGATING ∨
    (⟨.MITIGATING, 197/2, 4003/40⟩ : ControllerOutput).state = .RECOVERING :=
  runController_no_mitigating_to_detecting
    [testRow (3/10), testRow (3/10), testRow (3/10)] holdoffZeroParams
    100 100 1 ⟨.MITIGATING, 100, 100⟩ ⟨.MITIGATING, 197/2, 4003/40⟩
    (by norm_num [runController, runControllerAux, ctrlStep, initMem,
      testRow, holdoffZeroParams])
    (by norm_num [runController, runControllerAux, ctrlStep, initMem,
      testRow, holdoffZeroParams])
    rfl

/-! ## C8: the attack/release smoothing filter -/

/-- C8: each update computes `alpha = 0.4` on the attack branch
(`raw > y`) and `0.08` on the release branch, returning
`alpha*raw + (1-alpha)*y`; from `y = 0`, `update(0.8)` gives 0.32 and
then `update(0.2)` gives 0.3104. -/
theorem smoothUpdate_spec :
    (∀ y raw : ℚ, y < raw →
      smoothUpdate y raw = (2/5) * raw + (1 - 2/5) * y) ∧
    (∀ y raw : ℚ, raw ≤ y →
      smoothUpdate y raw = (2/25) * raw + (1 - 2/25) * y) ∧
    smoothUpdate 0 (4/5) = 8/25 ∧
    smoothUpdate (8/25) (1/5) = 194/625 := by
  refine ⟨?_, ?_, ?_, ?_⟩
  · intro y raw h
    simp [smoothUpdate, if_pos h]
  · intro y raw h
    simp [smoothUpdate, if_neg (not_lt.mpr h)]
  · norm_num [smoothUpdate]
  · norm_num [smoothUpdate]

/-- Witness for C8: the attack branch applied at `y = 0`, `raw = 0.8`.
(8/25 = 0.32; 194/625 = 0.3104.) -/
theorem smoothUpdate_spec_witness :
    smoothUpdate 0 (4/5) = (2/5) * (4/5) + (1 - 2/5) * 0 :=
  smoothUpdate_spec.1 0 (4/5) (by norm_num)

/-! ## C9: seeking is idempotent -/

/-- C9: the cursor, the smoothing memory and the slow-channel payload
after `moveCursor(k)` depend only on `k` and the arrays — any two prior
engine states give identical results, the smoothing memory is hard-reset
to the raw severity at `k`, and re-seeking the same index is the
identity on the engine state. -/
theorem moveCursor_idempotent :
    ∀ (processed : List ProcessedRow) (ctrlOutputs : List ControllerOutput)
      (st st' : EngineState) (k : ℕ),
      (moveCursor processed st k).cursorIdx = k ∧
      (moveCursor processed st k).smoothedCss =
        ((processed.get? k).map (·.computed_css)).getD 0 ∧
      (moveCursor processed st k).cursorIdx =
        (moveCursor processed st' k).cursorIdx ∧
      (moveCursor processed st k).smoothedCss =
        (moveCursor processed st' k).smoothedCss ∧
      slowPayload processed ctrlOutputs (moveCursor processed st k) =
        slowPayload processed ctrlOutputs (moveCursor processed st' k) ∧
      moveCursor processed (moveCursor processed st k) k =
        moveCursor processed st k := by
  intro processed ctrlOutputs st st' k
  refine ⟨rfl, rfl, rfl, rfl, ?_, rfl⟩
  simp [slowPayload, moveCursor]

/-! ## C10: setpoint bounds in every state -/

/-- Invariant on the controller's threaded memory: both setpoints stay
between the actuator floor/nominal and nominal/cap. -/
def memInv (p : ControllerParams) (nW nR : ℚ) (m : CtrlMem) : Prop :=
  nW * p.wobMinFraction ≤ m.wobSp ∧ m.wobSp ≤ nW ∧
  nR ≤ m.rpmSp ∧ m.rpmSp ≤ nR + p.rpmMaxIncrease

lemma ctrlStep_inv (p : ControllerParams) (nW nR : ℚ)
    (hkw : 0 ≤ p.kpWob) (hf1 : p.wobMinFraction ≤ 1)
    (hkr : 0 ≤ p.kpRpm) (hmax : 0 ≤ p.rpmMaxIncrease) (hnW : 0 ≤ nW)
    (m : CtrlMem) (i : ℕ) (css : ℚ) (h : memInv p nW nR m) :
    memInv p nW nR (ctrlStep p nW nR m i css) := by
  have hfw : nW * p.wobMinFraction ≤ nW := by
    calc nW * p.wobMinFraction ≤ nW * 1 :=
          mul_le_mul_of_nonneg_left hf1 hnW
      _ = nW := mul_one nW
  have hrr : nR ≤ nR + p.rpmMaxIncrease := le_add_of_nonneg_right hmax
  have hex : (0 : ℚ) ≤ max 0 (css - p.ssiEngage) := le_max_left 0 _
  obtain ⟨st, d, r, w, rp⟩ := m
  obtain ⟨h1, h2, h3, h4⟩ := h
  simp only [CtrlMem.wobSp, CtrlMem.rpmSp] at h1 h2 h3 h4
  cases st <;> simp only [ctrlStep] <;> split_ifs <;>
      unfold memInv <;> simp only [CtrlMem.wobSp, CtrlMem.rpmSp]
  all_goals first
    | exact ⟨h1, h2, h3, h4⟩
    | exact ⟨hfw, le_refl nW, le_refl nR, hrr⟩
    | exact ⟨le_max_left _ _,
        max_le hfw (sub_le_self nW
          (mul_nonneg (mul_nonneg hkw hex) hnW)),
        le_min hrr (le_add_of_nonneg_right
          (mul_nonneg (mul_nonneg hkr hex) (by norm_num))),
        min_le_left _ _⟩
    | exact ⟨le_min hfw (le_trans h1 (le_add_of_nonneg_right
          (mul_nonneg (by norm_num) hnW))),
        min_le_left _ _,
        le_max_left _ _,
        max_le hrr (by linarith)⟩

lemma runControllerAux_bounds (p : ControllerParams) (nW nR : ℚ)
    (hkw : 0 ≤ p.kpWob) (hf1 : p.wobMinFraction ≤ 1)
    (hkr : 0 ≤ p.kpRpm) (hmax : 0 ≤ p.rpmMaxIncrease) (hnW : 0 ≤ nW) :
    ∀ (l : List ℚ) (m : CtrlMem) (i : ℕ), memInv p nW nR m →
      ∀ o ∈ runControllerAux p nW nR m i l,
        nW * p.wobMinFraction ≤ o.wob_setpoint ∧ o.wob_setpoint ≤ nW ∧
        nR ≤ o.rpm_setpoint ∧ o.rpm_setpoint ≤ nR + p.rpmMaxIncrease := by
  intro l
  induction l with
  | nil => intro m i h o ho; simp [runControllerAux] at ho
  | cons css rest ih =>
    intro m i h o ho
    have h' := ctrlStep_inv p nW nR hkw hf1 hkr hmax hnW m i css h
    rcases List.mem_cons.mp ho with he | ht
    · subst he; exact h'
    · exact ih (ctrlStep p nW nR m i css) (i + 1) h' o ht

/-- C10: under non-negative gains, a floor fraction in (0,1], a
non-negative cap and non-negative nominal A, `runController` emits one
output per input and every emitted setpoint pair satisfies
`nominalA*floor ≤ setpointA ≤ nominalA` and
`nominalB ≤ setpointB ≤ nominalB + cap`, in every state. -/
theorem runController_setpoint_bounds (rows : List ProcessedRow)
    (p : ControllerParams) (nW nR : ℚ)
    (hkw : 0 ≤ p.kpWob) (hf0 : 0 < p.wobMinFraction)
    (hf1 : p.wobMinFraction ≤ 1) (hkr : 0 ≤ p.kpRpm)
    (hmax : 0 ≤ p.rpmMaxIncrease) (hnW : 0 ≤ nW) :
    (runController rows p nW nR).length = rows.length ∧
    ∀ o ∈ runController rows p nW nR,
      nW * p.wobMinFraction ≤ o.wob_setpoint ∧ o.wob_setpoint ≤ nW ∧
      nR ≤ o.rpm_setpoint ∧ o.rpm_setpoint ≤ nR + p.rpmMaxIncrease := by
  refine ⟨runController_length rows p nW nR, ?_⟩
  have hinit : memInv p nW nR (initMem nW nR) := by
    refine ⟨?_, le_refl nW, le_refl nR, le_add_of_nonneg_right hmax⟩
    calc nW * p.wobMinFraction ≤ nW * 1 :=
          mul_le_mul_of_nonneg_left hf1 hnW
      _ = nW := mul_one nW
  exact runControllerAux_bounds p nW nR hkw hf1 hkr hmax hnW
    (rows.map (·.computed_css)) (initMem nW nR) 0 hinit

/-- Witness for C10 at Example 3's parameters on a one-sample input. -/
theorem runController_setpoint_bounds_witness :
    (runController [testRow (1/2)] exampleParams 100 100).length =
        [testRow (1/2)].length ∧
    ∀ o ∈ runController [testRow (1/2)] exampleParams 100 100,
      100 * exampleParams.wobMinFraction ≤ o.wob_setpoint ∧
      o.wob_setpoint ≤ 100 ∧
      100 ≤ o.rpm_setpoint ∧
      o.rpm_setpoint ≤ 100 + exampleParams.rpmMaxIncrease :=
  runController_setpoint_bounds [testRow (1/2)] exampleParams 100 100
    (by norm_num [exampleParams]) (by norm_num [exampleParams])
    (by norm_num [exampleParams]) (by norm_num [exampleParams])
    (by norm_num [exampleParams]) (by norm_num)

end DrillSim
